import Mathlib

/-!
Verification of the KDS population-genetics core.

This file gives a shallow embedding, over exact rationals, of the
computational core of the repository:

* `fst_calculations.py` — `extract_pool_names`, `calculate_allele_frequencies`,
  `calculate_pairwise_fst`, `create_fst_matrix`;
* `data_processing.py` — the validation core of `parse_pooled_data`;
* `vcfFunctions.py` — `apply_quality_control` (its five stages) and the
  component-count logic of `run_pca_analysis`.

Modelling conventions:

* numpy float arrays become lists of `Option ℚ`; `none` plays the role of
  NaN (numpy comparisons with NaN yield `False`, and NaN is absorbing for
  arithmetic, which matches the `Option` propagation used here);
* a pandas `DataFrame` becomes an association list from column names to
  columns of `Option ℚ` cells (a cell is `none` where
  `pd.to_numeric` with coercion of errors to NaN produced NaN);
* Python exceptions become `Except`; the structured error payloads record
  the diagnostics interpolated into the Python error messages;
* Python string operations (`startswith`, `replace`, `sorted`) are
  re-implemented on `List Char` with the semantics of Python (code-point
  lexicographic order, replacement of all non-overlapping occurrences
  left to right).
-/

namespace KDS

/-- NaN-absorbing addition on `Option ℚ`: numpy `x + y` is NaN whenever
either operand is NaN. -/
def oadd (a b : Option ℚ) : Option ℚ :=
  match a, b with
  | some x, some y => some (x + y)
  | _, _ => none

/-- Models `np.clip (x, 0, 1)`. -/
def clip01 (x : ℚ) : ℚ := min 1 (max 0 x)

/-- Models `np.max` over a list (the call sites only use it on nonempty lists;
the `[]` default is irrelevant there). -/
def qListMax : List ℚ → ℚ
  | [] => 0
  | x :: xs => xs.foldl max x

/-- Models `np.min` over a list (the call sites only use it on nonempty lists). -/
def qListMin : List ℚ → ℚ
  | [] => 0
  | x :: xs => xs.foldl min x

/-- Whether all elements of a list are equal (used to model
`array.std() == 0` for a nonempty array of integers). -/
def allEqL {α : Type} [DecidableEq α] : List α → Bool
  | [] => true
  | x :: xs => xs.all (fun y => y == x)

/-- Boolean-mask selection, `array[mask]` / `compress`. -/
def filterByMask {α : Type} (l : List α) (mask : List Bool) : List α :=
  (l.zip mask).filterMap (fun xb => if xb.2 then some xb.1 else none)

/-- If `pat` is an initial segment of `s`, return the remainder of `s`. -/
def headRest? : List Char → List Char → Option (List Char)
  | [], s => some s
  | _ :: _, [] => none
  | p :: ps, c :: cs => if p = c then headRest? ps cs else none

/-- Python `s.startswith(pat)`. -/
def startsL (pat s : List Char) : Bool := (headRest? pat s).isSome

/-- Fuel-driven loop for `pyReplace`; each step consumes at least one
character of the subject, so fuel `s.length` suffices. -/
def replLoop (pat rep : List Char) : ℕ → List Char → List Char
  | _, [] => []
  | 0, l => l
  | fuel + 1, c :: rest =>
    match headRest? pat (c :: rest) with
    | some rest' => rep ++ replLoop pat rep fuel rest'
    | none => c :: replLoop pat rep fuel rest

/-- Python `s.replace(pat, rep)`: replace all non-overlapping occurrences,
scanning left to right.  (All call sites in the source use the nonempty
pattern `"reference_count_"` or `"pool_depth_"`; the empty-pattern guard
only keeps the function total.) -/
def pyReplace (s pat rep : String) : String :=
  if pat.data.isEmpty then s
  else ⟨replLoop pat.data rep.data s.data.length s.data⟩

/-- Lexicographic (code-point) comparison of character lists: the string order of Python. -/
def lexLe : List Char → List Char → Bool
  | [], _ => true
  | _ :: _, [] => false
  | a :: as, b :: bs =>
    if a.toNat < b.toNat then true
    else if b.toNat < a.toNat then false
    else lexLe as bs

/-- Python string comparison (`a <= b`): lexicographic on code points.
This is the order used by `sorted(...)`. -/
def pyStrLe (a b : String) : Prop := lexLe a.data b.data = true

instance : DecidableRel pyStrLe := fun a b =>
  inferInstanceAs (Decidable (lexLe a.data b.data = true))

theorem lexLe_total (as bs : List Char) : lexLe as bs = true ∨ lexLe bs as = true := by
  induction as generalizing bs with
  | nil => left; rfl
  | cons a as ih =>
    cases bs with
    | nil => right; rfl
    | cons b bs =>
      rcases Nat.lt_trichotomy a.toNat b.toNat with h | h | h
      · left; simp [lexLe, h]
      · rcases ih bs with h' | h'
        · left; simp [lexLe, h, h']
        · right; simp [lexLe, h.symm, h']
      · right; simp [lexLe, h]

theorem lexLe_trans (as bs cs : List Char) (h1 : lexLe as bs = true)
    (h2 : lexLe bs cs = true) : lexLe as cs = true := by
  induction as generalizing bs cs with
  | nil => rfl
  | cons a as ih =>
    cases bs with
    | nil => simp [lexLe] at h1
    | cons b bs =>
      cases cs with
      | nil => simp [lexLe] at h2
      | cons c cs =>
        simp only [lexLe] at h1 h2 ⊢
        by_cases hab : a.toNat < b.toNat
        · by_cases hbc : b.toNat < c.toNat
          · rw [if_pos (show a.toNat < c.toNat by omega)]
          · rw [if_neg hbc] at h2
            by_cases hcb : c.toNat < b.toNat
            · rw [if_pos hcb] at h2; exact absurd h2 (by simp)
            · rw [if_pos (show a.toNat < c.toNat by omega)]
        · rw [if_neg hab] at h1
          by_cases hba : b.toNat < a.toNat
          · rw [if_pos hba] at h1; exact absurd h1 (by simp)
          · rw [if_neg hba] at h1
            by_cases hbc : b.toNat < c.toNat
            · rw [if_pos (show a.toNat < c.toNat by omega)]
            · rw [if_neg hbc] at h2
              by_cases hcb : c.toNat < b.toNat
              · rw [if_pos hcb] at h2; exact absurd h2 (by simp)
              · rw [if_neg hcb] at h2
                rw [if_neg (show ¬ a.toNat < c.toNat by omega),
                  if_neg (show ¬ c.toNat < a.toNat by omega)]
                exact ih bs cs h1 h2

instance : IsTotal String pyStrLe := ⟨fun a b => lexLe_total a.data b.data⟩

instance : IsTrans String pyStrLe := ⟨fun _ _ _ h h' => lexLe_trans _ _ _ h h'⟩

/-- Python `sorted(...)` on strings (stable; on `Nodup`-free duplicates the
elements are identical, so any stable sort realises it). -/
def pySorted (l : List String) : List String := l.insertionSort pyStrLe

/-! ### The pooled-count DataFrame -/

/-- A pandas DataFrame restricted to what the FST path uses: named columns
of numeric-or-NaN cells. -/
structure DF where
  cols : List (String × List (Option ℚ))
deriving DecidableEq

/-- Models `df.columns`. -/
def DF.colNames (df : DF) : List String := df.cols.map (fun c => c.1)

/-- Models `df[name]` as an optional column (`none` when the column is absent,
where the Python code would raise / take its error branch). -/
def DF.getCol (df : DF) (name : String) : Option (List (Option ℚ)) :=
  (df.cols.find? (fun c => c.1 == name)).map (fun c => c.2)

/-- Number of rows, `len(df)` (all columns of a real DataFrame have the
same length; we read it off the first column). -/
def DF.nrows (df : DF) : ℕ :=
  match df.cols with
  | [] => 0
  | c :: _ => c.2.length

def refPrefixStr : String := "reference_count_"
def depthPrefixStr : String := "pool_depth_"

/-! ### fst_calculations.py -/

/-- Models `extract_pool_names` (fst_calculations.py:6-9): the columns starting
with `reference_count_`, with every occurrence of that substring removed
(Python `str.replace`), sorted. -/
def extractPoolNames (df : DF) : List String :=
  pySorted ((df.colNames.filter (fun c => startsL refPrefixStr.data c.data)).map
    (fun c => pyReplace c refPrefixStr ""))

/-- The per-locus frequency array of `calculate_allele_frequencies`
(fst_calculations.py:18-26): `freqs` is initialised to zeros and set to
`ref/depth` where `depth > 0`; a NaN `ref` over a valid depth yields NaN. -/
def freqsOf (refs depths : List (Option ℚ)) : List (Option ℚ) :=
  (refs.zip depths).map (fun rd =>
    match rd.2 with
    | some dv =>
      if 0 < dv then
        match rd.1 with
        | some rv => some (rv / dv)
        | none => none
      else some 0
    | none => some 0)

/-- Models `calculate_allele_frequencies` (fst_calculations.py:11-26): raises
`ValueError` when either column of the pool is absent, otherwise returns
the frequency array and the `depths > 0` validity mask. -/
def calculateAlleleFrequencies (df : DF) (poolName : String) :
    Except String (List (Option ℚ) × List Bool) :=
  match df.getCol (refPrefixStr ++ poolName), df.getCol (depthPrefixStr ++ poolName) with
  | some refs, some depths =>
    .ok (freqsOf refs depths,
         depths.map (fun d => match d with | some dv => decide (0 < dv) | none => false))
  | _, _ => .error ("Missing columns for pool " ++ poolName)

/-- The qualifying loci of a pool pair (fst_calculations.py:37-46): rows
where both depths are non-NaN, positive, and at least `min_depth`; for
each such row we keep `(p1, n1, p2, n2)`, the two (possibly NaN)
frequencies and the two depths. -/
def qualifyingLoci (df : DF) (pool1 pool2 : String) (minDepth : ℤ) :
    List (Option ℚ × ℚ × Option ℚ × ℚ) :=
  let refs1 := (df.getCol (refPrefixStr ++ pool1)).getD []
  let depths1 := (df.getCol (depthPrefixStr ++ pool1)).getD []
  let refs2 := (df.getCol (refPrefixStr ++ pool2)).getD []
  let depths2 := (df.getCol (depthPrefixStr ++ pool2)).getD []
  ((freqsOf refs1 depths1).zip (depths1.zip ((freqsOf refs2 depths2).zip depths2))).filterMap
    (fun r =>
      match r.2.1, r.2.2.2 with
      | some n1, some n2 =>
        if 0 < n1 ∧ 0 < n2 ∧ (minDepth : ℚ) ≤ n1 ∧ (minDepth : ℚ) ≤ n2 then
          some (r.1, n1, r.2.2.1, n2)
        else none
      | _, _ => none)

/-- Models `p_bar` (fst_calculations.py:48) — computed by the source but never
used afterwards; kept for completeness. -/
def pBarOf (p1 : Option ℚ) (n1 : ℚ) (p2 : Option ℚ) (n2 : ℚ) : Option ℚ :=
  match p1, p2 with
  | some u, some v => some ((n1 * u + n2 * v) / (n1 + n2))
  | _, _ => none

/-- Models `s2` (fst_calculations.py:50-55): NaN where `n1+n2-1 ≤ 0` or either
frequency is NaN. -/
def s2Of (p1 : Option ℚ) (n1 : ℚ) (p2 : Option ℚ) (n2 : ℚ) : Option ℚ :=
  if n1 + n2 - 1 ≤ 0 then none
  else
    match p1, p2 with
    | some u, some v => some ((n1 * (u * (1 - u)) + n2 * (v * (1 - v))) / (n1 + n2 - 1))
    | _, _ => none

/-- Models `nc_val` (fst_calculations.py:57-58). -/
def ncValOf (n1 n2 : ℚ) : ℚ := n1 + n2 - (n1 ^ 2 + n2 ^ 2) / (n1 + n2)

/-- Models `correction_term` (fst_calculations.py:62-67): NaN where
`2(n1+n2)-1 ≤ 0` or either frequency is NaN. -/
def corrOf (p1 : Option ℚ) (n1 : ℚ) (p2 : Option ℚ) (n2 : ℚ) : Option ℚ :=
  if 2 * (n1 + n2) - 1 ≤ 0 then none
  else
    match p1, p2 with
    | some u, some v =>
      some ((1 / (2 * (n1 + n2) - 1)) * (n1 * (u * (1 - u)) + n2 * (v * (1 - v))))
    | _, _ => none

/-- Models `a` (fst_calculations.py:69-71): NaN where `nc_val - 1 ≤ 0` or where
`s2` or the correction term is NaN. -/
def aOf (p1 : Option ℚ) (n1 : ℚ) (p2 : Option ℚ) (n2 : ℚ) : Option ℚ :=
  if ncValOf n1 n2 - 1 ≤ 0 then none
  else
    match s2Of p1 n1 p2 n2, corrOf p1 n1 p2 n2 with
    | some s, some t => some ((ncValOf n1 n2 / (ncValOf n1 n2 - 1)) * (s - t))
    | _, _ => none

/-- Models `c = 0.5 * (p1 - p2)**2` (fst_calculations.py:77). -/
def cOf (p1 p2 : Option ℚ) : Option ℚ :=
  match p1, p2 with
  | some u, some v => some ((1 / 2) * (u - v) ^ 2)
  | _, _ => none

/-- Models `numerator_fst = a + b + c` with `b = correction_term`
(fst_calculations.py:73-79). -/
def locusNumerator (p1 : Option ℚ) (n1 : ℚ) (p2 : Option ℚ) (n2 : ℚ) : Option ℚ :=
  oadd (oadd (aOf p1 n1 p2 n2) (corrOf p1 n1 p2 n2)) (cOf p1 p2)

/-- Models `denominator_fst = a + b + c + s2` (fst_calculations.py:80). -/
def locusDenominator (p1 : Option ℚ) (n1 : ℚ) (p2 : Option ℚ) (n2 : ℚ) : Option ℚ :=
  oadd (locusNumerator p1 n1 p2 n2) (s2Of p1 n1 p2 n2)

/-- Models `fst_per_locus` after clipping (fst_calculations.py:82-95): ratio where
the denominator is nonzero, the exact-zero special cases `0/0 ↦ 0` and
`x/0 ↦ 1` (x ≠ 0), NaN where either component is NaN; finally
`np.clip(·, 0, 1)` (NaN entries stay NaN). -/
def locusFst (p1 : Option ℚ) (n1 : ℚ) (p2 : Option ℚ) (n2 : ℚ) : Option ℚ :=
  (match locusNumerator p1 n1 p2 n2, locusDenominator p1 n1 p2 n2 with
   | some nu, some de =>
     if de ≠ 0 then some (nu / de)
     else if nu = 0 then some 0
     else some 1
   | _, _ => none).map clip01

/-- The locus-level pair `(fst, weight)` entering the weighted average
(fst_calculations.py:97-101): NaN loci are excluded (`none`), the weight
is the combined depth `n1 + n2`. -/
def locusWeighted (l : Option ℚ × ℚ × Option ℚ × ℚ) : Option (ℚ × ℚ) :=
  (locusFst l.1 l.2.1 l.2.2.1 l.2.2.2).map (fun v => (v, l.2.1 + l.2.2.2))

/-- Models `calculate_pairwise_fst` (fst_calculations.py:29-108): raises when a
pool has missing columns; returns NaN (`none`) below 10 qualifying loci
or when no locus survives the NaN exclusion (or the surviving weights sum
to zero); otherwise the depth-weighted average of the per-locus values,
clipped to `[0,1]`. -/
def calculatePairwiseFst (df : DF) (pool1 pool2 : String) (minDepth : ℤ) :
    Except String (Option ℚ) :=
  match calculateAlleleFrequencies df pool1 with
  | .error e => .error e
  | .ok _ =>
    match calculateAlleleFrequencies df pool2 with
    | .error e => .error e
    | .ok _ =>
      if (qualifyingLoci df pool1 pool2 minDepth).length < 10 then .ok none
      else if ((qualifyingLoci df pool1 pool2 minDepth).filterMap locusWeighted = [] ∨
          ((((qualifyingLoci df pool1 pool2 minDepth).filterMap locusWeighted).map
            (fun x => x.2)).sum = 0)) then .ok none
      else .ok (some (clip01
        ((((qualifyingLoci df pool1 pool2 minDepth).filterMap locusWeighted).map
            (fun x => x.1 * x.2)).sum /
         (((qualifyingLoci df pool1 pool2 minDepth).filterMap locusWeighted).map
            (fun x => x.2)).sum)))

/-- The result DataFrame of `create_fst_matrix`: the sorted pool labels
(which index both rows and columns) and the cell contents. -/
structure FstMatrix where
  pools : List String
  entry : ℕ → ℕ → Option ℚ

/-- The index pairs `(i, j)` with `i < j < n`, in the order of the nested
loops of `create_fst_matrix` (fst_calculations.py:126-135). -/
def upperPairs (n : ℕ) : List (ℕ × ℕ) :=
  (List.range n).flatMap (fun i => ((List.range n).filter (fun j => i < j)).map (fun j => (i, j)))

/-- The cell contents of the matrix built by `create_fst_matrix`
(fst_calculations.py:124-132): the array starts as all-NaN (`none` outside
the index range), the diagonal is set to zero, and each upper-triangle
cell is computed once and mirrored — the `min`/`max` encodes the
mirroring `fst_matrix[i, j] = fst_matrix[j, i] = fst`. -/
def fstEntry (df : DF) (minDepth : ℤ) (i j : ℕ) : Option ℚ :=
  let pools := extractPoolNames df
  let n := pools.length
  if i = j then (if i < n then some 0 else none)
  else if i < n ∧ j < n then
    ((calculatePairwiseFst df (pools.getD (Nat.min i j) "")
       (pools.getD (Nat.max i j) "") minDepth).toOption.getD none)
  else none

/-- Models `create_fst_matrix` (fst_calculations.py:118-138): labelled by the
sorted pool names; an exception in any pair computation (in loop order)
aborts the whole matrix. -/
def createFstMatrix (df : DF) (minDepth : ℤ) : Except String FstMatrix :=
  let pools := extractPoolNames df
  let n := pools.length
  match (upperPairs n).mapM (fun ij =>
    calculatePairwiseFst df (pools.getD ij.1 "") (pools.getD ij.2 "") minDepth) with
  | .error e => .error e
  | .ok _ => .ok { pools := pools, entry := fstEntry df minDepth }

/-! ### data_processing.py — the validation core of `parse_pooled_data`

The file-decoding and CSV-reading glue of `parse_pooled_data`
(data_processing.py:236-247) is presentation-layer I/O; the embedding
starts from the already-materialised DataFrame, whose cells are the
outcome of `pd.to_numeric` with coercion of errors to NaN (`none` = NaN).  On such a
frame the `to_numeric` pass and the numeric-dtype re-check
(data_processing.py:259-271) are the identity and always succeed, so they
do not appear as separate steps. -/

/-- The structured content of the error messages returned by
`parse_pooled_data` (the `(None, message)` returns). -/
inductive ParseError where
  /-- Message "Berkas pooled data kosong." — empty frame. -/
  | empty : ParseError
  /-- Message "Berkas tidak memiliki kolom reference_count_ atau pool_depth_ ..." -/
  | missingRequired : ParseError
  /-- Message "Kolom kedalaman ⟨col⟩ berisi nilai negatif ..." -/
  | negativeDepth (col : String) : ParseError
  /-- Message "Untuk pool ⟨suffix⟩, ditemukan reference_count > pool_depth ..." -/
  | refGtDepth (suffix : String) : ParseError
deriving DecidableEq

/-- The `reference_count_` columns, in column order (data_processing.py:253). -/
def refColNames (df : DF) : List String :=
  df.colNames.filter (fun c => startsL refPrefixStr.data c.data)

/-- The `pool_depth_` columns, in column order (data_processing.py:254). -/
def depthColNames (df : DF) : List String :=
  df.colNames.filter (fun c => startsL depthPrefixStr.data c.data)

/-- The pool-suffix set of data_processing.py:277-279: every column of
either family with the marker substring of its own family removed
(`str.replace`), iterated in sorted order (data_processing.py:281). -/
def poolSuffixes (df : DF) : List String :=
  pySorted (((refColNames df).map (fun c => pyReplace c refPrefixStr "") ++
    (depthColNames df).map (fun c => pyReplace c depthPrefixStr "")).dedup)

/-- Whether a cell holds a (non-NaN) negative value; `(df[col] < 0)` is
`False` on NaN cells. -/
def cellNeg (x : Option ℚ) : Bool :=
  match x with
  | some v => decide (v < 0)
  | none => false

/-- The `(df[ref] > df[depth]) & notna & notna` row test of
data_processing.py:285 for one row. -/
def refGtDepthCell (r d : Option ℚ) : Bool :=
  match r, d with
  | some rv, some dv => decide (dv < rv)
  | _, _ => false

/-- The validation core of `parse_pooled_data` (data_processing.py:249-289):
empty-frame check, presence of both column families, non-negative depth
columns, and `reference_count ≤ pool_depth` per pool suffix — but the
latter only for suffixes whose two reconstructed column names both exist,
the others are skipped.  On success the (already numeric) frame itself is
returned. -/
def parsePooledData (df : DF) : Except ParseError DF :=
  if df.nrows = 0 ∨ df.cols = [] then .error .empty
  else if refColNames df = [] ∨ depthColNames df = [] then .error .missingRequired
  else
    match (depthColNames df).find? (fun c => ((df.getCol c).getD []).any cellNeg) with
    | some c => .error (.negativeDepth c)
    | none =>
      match (poolSuffixes df).find? (fun s =>
        match df.getCol (refPrefixStr ++ s), df.getCol (depthPrefixStr ++ s) with
        | some rcol, some dcol => (rcol.zip dcol).any (fun rd => refGtDepthCell rd.1 rd.2)
        | _, _ => false) with
      | some s => .error (.refGtDepth s)
      | none => .ok df

/-! ### vcfFunctions.py — the QC pipeline

A genotype call is a diploid pair of allele indices, `-1` marking a
missing allele (`allel.GenotypeArray` semantics as used by the source:
`count_alleles` counts the non-negative allele entries, `is_missing` holds
when any entry of the call is negative, `to_n_alt` counts the entries
`> 0` and fills `-1` on missing calls). -/

/-- One diploid genotype call. -/
abbrev GCall := ℤ × ℤ

/-- One variant across all samples. -/
abbrev GRow := List GCall

/-- The callset handed to `apply_quality_control`: the GT array and the
sample names (rows of `gt` are variants, aligned with `samples` in their
second axis). -/
structure Callset where
  gt : List GRow
  samples : List String
deriving DecidableEq

/-- The allele entries of one variant row, in order. -/
def rowAlleles (v : GRow) : List ℤ := v.flatMap (fun c => [c.1, c.2])

/-- Models `count_alleles` for one allele index at one variant: the number of
call entries equal to `a` (only queried for `a ≥ 0`). -/
def alleleCount (v : GRow) (a : ℤ) : ℕ := (rowAlleles v).count a

/-- The observed (non-negative) allele entries at one variant. -/
def observedAlleles (v : GRow) : List ℤ := (rowAlleles v).filter (fun a => 0 ≤ a)

/-- Models `allelism`: the number of distinct alleles observed at the variant. -/
def allelism (v : GRow) : ℕ := (observedAlleles v).dedup.length

/-- Models `AlleleCountsArray.is_biallelic`: exactly two distinct alleles. -/
def isBiallelicRow (v : GRow) : Bool := allelism v == 2

/-- Models `AlleleCountsArray.is_biallelic_01`: biallelic and both allele 0 and
allele 1 observed (`is_biallelic & (ac[:, :2].min(axis=1) > 0)`). -/
def isBiallelic01Row (v : GRow) : Bool :=
  isBiallelicRow v && decide (0 < alleleCount v 0) && decide (0 < alleleCount v 1)

/-- Models `to_frequencies()[:, 1]` with the NaN→0 replacement of
vcfFunctions.py:70-72: the share of allele 1 among observed allele
entries, `0` when nothing is observed. -/
def aafOf (v : GRow) : ℚ :=
  let an := (observedAlleles v).length
  if an = 0 then 0 else (alleleCount v 1 : ℚ) / (an : ℚ)

/-- Models `GenotypeArray.is_missing` for one call: any negative entry. -/
def isMissingCall (c : GCall) : Bool := decide (c.1 < 0) || decide (c.2 < 0)

/-- Models `count_missing(axis=1)` for one variant row. -/
def countMissingRow (v : GRow) : ℕ := (v.filter isMissingCall).length

/-- Models `to_n_alt(fill=-1)` for one call: number of entries `> 0`, or `-1` on
a missing call. -/
def nAltCall (c : GCall) : ℤ :=
  if isMissingCall c then -1
  else (([c.1, c.2].filter (fun a => decide (0 < a))).length : ℤ)

/-- The structured content of the `ValueError` messages raised inside
`apply_quality_control`. -/
inductive QCError where
  /-- Message "No biallelic SNPs found in the dataset." -/
  | noBiallelic : QCError
  /-- Message "No SNPs passed MAF filter (threshold: t). Maximum MAF in dataset: m"
  where `m = aaf[aaf < 0.5].max()` (vcfFunctions.py:82-83). -/
  | mafFail (threshold reported : ℚ) : QCError
  /-- The same branch when `aaf[aaf < 0.5]` is empty: the `.max()` itself
  raises a `ValueError` while the message is being built. -/
  | mafEmptyMax (threshold : ℚ) : QCError
  /-- Message "No SNPs passed missingness filter ... Minimum SNP missingness: m". -/
  | snpMissFail (threshold minMissing : ℚ) : QCError
  /-- Message "No samples passed missingness filter ... Minimum sample missingness: m". -/
  | indMissFail (threshold minMissing : ℚ) : QCError
  /-- Message "No data remaining after quality control." (vcfFunctions.py:111-112). -/
  | noData : QCError
  /-- Message "No genetic variation remaining after QC." (vcfFunctions.py:119-120). -/
  | noVariation : QCError
deriving DecidableEq

/-- Stage 1, the biallelic filter (vcfFunctions.py:55-64): keep the
strict `is_biallelic_01` variants; if none survive, fall back once to
`is_biallelic`; if still none, fail. -/
def biallelicStage (gt : List GRow) : Except QCError (List GRow) :=
  let gtBi := gt.filter isBiallelic01Row
  if gtBi = [] then
    let gtBi2 := gt.filter isBiallelicRow
    if gtBi2 = [] then .error .noBiallelic else .ok gtBi2
  else .ok gtBi

/-- The MAF retention test at threshold `t`:
`(aaf > t) & (aaf < 1 - t)` (vcfFunctions.py:74). -/
def mafInside (t : ℚ) (v : GRow) : Bool :=
  decide (t < aafOf v) && decide (aafOf v < 1 - t)

/-- Stage 2, the MAF filter (vcfFunctions.py:68-83): filter at
`maf_threshold`; on zero survivors retry exactly once at
`maf_threshold/2`; on zero survivors again fail, reporting
`aaf[aaf < 0.5].max()`. -/
def mafStage (gtBi : List GRow) (mafThreshold : ℚ) : Except QCError (List GRow) :=
  let gtMaf := gtBi.filter (mafInside mafThreshold)
  if gtMaf = [] then
    let gtMaf2 := gtBi.filter (mafInside (mafThreshold / 2))
    if gtMaf2 = [] then
      let below := (gtBi.map aafOf).filter (fun x => decide (x < 1 / 2))
      if below = [] then .error (.mafEmptyMax mafThreshold)
      else .error (.mafFail mafThreshold (qListMax below))
    else .ok gtMaf2
  else .ok gtMaf

/-- Stage 3, the per-variant missingness filter (vcfFunctions.py:87-94):
keep variants whose missing-call share (over all samples, the unchanged
second axis) is strictly below the threshold; on zero survivors fail,
reporting the minimum observed share. -/
def snpMissStage (gtMaf : List GRow) (thresh : ℚ) (nSamples : ℕ) :
    Except QCError (List GRow) :=
  let gtSnp := gtMaf.filter (fun v => decide ((countMissingRow v : ℚ) / (nSamples : ℚ) < thresh))
  if gtSnp = [] then
    .error (.snpMissFail thresh
      (qListMin (gtMaf.map (fun v => (countMissingRow v : ℚ) / (nSamples : ℚ)))))
  else .ok gtSnp

/-- Stage 4, the per-sample missingness filter (vcfFunctions.py:98-106):
the per-sample missing share over the variants surviving stage 3, the
column mask, the compressed matrix and the surviving sample names; on
zero surviving samples fail, reporting the minimum observed share. -/
def indMissStage (gtSnp : List GRow) (thresh : ℚ) (samples : List String) :
    Except QCError (List GRow × List String) :=
  let nVar := gtSnp.length
  let props := (List.range samples.length).map
    (fun j => ((gtSnp.countP (fun v => isMissingCall (v.getD j (0, 0)))) : ℚ) / (nVar : ℚ))
  let keep := props.map (fun p => decide (p < thresh))
  let gtQc := gtSnp.map (fun v => filterByMask v keep)
  let samplesAfter := filterByMask samples keep
  if samplesAfter = [] then .error (.indMissFail thresh (qListMin props))
  else .ok (gtQc, samplesAfter)

/-- Models `to_n_alt(fill=-1)` over the whole matrix (vcfFunctions.py:117). -/
def toNAlt (gtQc : List GRow) : List (List ℤ) := gtQc.map (fun v => v.map nAltCall)

/-- Models `gn[gn != -1]`: the pooled non-missing dosage values of the whole
matrix, in row-major order. -/
def nonMissingVals (gn : List (List ℤ)) : List ℤ :=
  gn.flatten.filter (fun x => x ≠ -1)

/-- Stages 1-4 followed by the redundant shape check and `to_n_alt`: the
dosage matrix handed to the variation check and the imputer, the
surviving samples, and the after-QC variant count. -/
def qcStages (cs : Callset) (mafThreshold snpThresh indThresh : ℚ) :
    Except QCError (List (List ℤ) × List String × ℕ) := do
  let gtBi ← biallelicStage cs.gt
  let gtMaf ← mafStage gtBi mafThreshold
  let gtSnp ← snpMissStage gtMaf snpThresh cs.samples.length
  let (gtQc, samplesAfter) ← indMissStage gtSnp indThresh cs.samples
  if gtQc = [] ∨ samplesAfter = [] then throw .noData
  return (toNAlt gtQc, samplesAfter, gtQc.length)

/-- One variant row of the imputer input (`SimpleImputer` with missing value -1
and mean strategy, applied to `gn.T`, whose feature columns are the variant rows of
`gn`): mean substitution over the observed entries, or `none` when the
variant has no observed entry at all — sklearn silently drops such an
all-missing feature column. -/
def imputeRow (row : List ℤ) : Option (List ℚ) :=
  let obs := row.filter (fun x => x ≠ -1)
  if obs = [] then none
  else some (row.map (fun x => if x = -1 then ((obs.sum : ℚ) / (obs.length : ℚ)) else (x : ℚ)))

/-- Models `imputer.fit_transform(gn.T)` (vcfFunctions.py:122-123): impute each
variant, drop all-missing variants, and hand back the sample × variant
orientation. -/
def imputeTranspose (gn : List (List ℤ)) : List (List ℚ) :=
  (gn.filterMap imputeRow).transpose

/-- The successful return value of `apply_quality_control`
(vcfFunctions.py:125). -/
structure QCResult where
  matrix : List (List ℚ)
  samples : List String
  snpsOriginal : ℕ
  snpsAfterQc : ℕ
  samplesOriginal : ℕ
deriving DecidableEq

/-- Models `apply_quality_control` (vcfFunctions.py:45-131): stages 1-4, then the
global variation check `gn[gn != -1].std() == 0` — the pooled non-missing
values of the whole matrix are nonempty and all equal (an empty selection
gives a NaN std, which compares unequal to 0 and passes) — then mean
imputation and transposition. -/
def applyQualityControl (cs : Callset) (mafThreshold snpThresh indThresh : ℚ) :
    Except QCError QCResult :=
  match qcStages cs mafThreshold snpThresh indThresh with
  | .error e => .error e
  | .ok (gn, samplesAfter, snpsAfter) =>
    if nonMissingVals gn ≠ [] ∧ allEqL (nonMissingVals gn) then .error .noVariation
    else .ok { matrix := imputeTranspose gn
               samples := samplesAfter
               snpsOriginal := cs.gt.length
               snpsAfterQc := snpsAfter
               samplesOriginal := cs.samples.length }

/-! ### vcfFunctions.py — `run_pca_analysis` component-count logic

The standardisation and the SVD itself are performed by sklearn outside
this repository; what the source owns is the validation and the effective
component count (vcfFunctions.py:137-150), and the shape contract that
`fit_transform` returns exactly `n_components` columns.  The embedding
therefore returns the effective component count. -/

/-- The validation and component-count logic of `run_pca_analysis`:
`max(1, min(n_samples - 1, n_features, n_components))` after the two
dimension checks. -/
def runPcaComponents (nSamples nFeatures : ℕ) (nComponents : ℤ) : Except String ℕ :=
  if nSamples < 2 then .error "PCA requires at least 2 samples."
  else if nFeatures < 1 then .error "PCA requires at least 1 feature (SNP)."
  else (Except.ok (Int.toNat (max 1 (min (min ((nSamples : ℤ) - 1) (nFeatures : ℤ)) nComponents))))

/-- Models `run_pca_analysis` applied to an (n_samples × n_features) matrix: the
shape is read off the matrix (`genotype_matrix_imputed.shape`), the rest
is `runPcaComponents`. -/
def runPcaAnalysis (m : List (List ℚ)) (nComponents : ℤ) : Except String ℕ :=
  runPcaComponents m.length (m.headD []).length nComponents

/-! ### Concrete instances used by witnesses and counterexamples -/

/-- A well-formed 2-pool table with one all-zero row (0 qualifying loci):
`create_fst_matrix` succeeds on it with both off-diagonal entries NaN. -/
def dfW : DF :=
  ⟨[("reference_count_A", [some 0]), ("pool_depth_A", [some 0]),
    ("reference_count_B", [some 0]), ("pool_depth_B", [some 0])]⟩

/-- A 2-pool table with 10 loci, every locus fixed-differentiated
(frequency 0 in pool A, 1 in pool B) and both depths equal to 1, so all
10 loci qualify at `min_depth = 1`. -/
def dfDepthOne : DF :=
  ⟨[("reference_count_A", List.replicate 10 (some 0)),
    ("pool_depth_A", List.replicate 10 (some 1)),
    ("reference_count_B", List.replicate 10 (some 1)),
    ("pool_depth_B", List.replicate 10 (some 1))]⟩

/-- A 2-pool table with 10 fixed-differentiated loci of depth 10 in each
pool: the textbook complete-fixation case at `min_depth = 10`. -/
def dfFixed : DF :=
  ⟨[("reference_count_A", List.replicate 10 (some 0)),
    ("pool_depth_A", List.replicate 10 (some 10)),
    ("reference_count_B", List.replicate 10 (some 10)),
    ("pool_depth_B", List.replicate 10 (some 10))]⟩

/-- A 2-pool table with 12 loci of which only 5 reach depth 10 in pool A. -/
def dfFive : DF :=
  ⟨[("reference_count_A", List.replicate 12 (some 2)),
    ("pool_depth_A", List.replicate 5 (some 10) ++ List.replicate 7 (some 2)),
    ("reference_count_B", List.replicate 12 (some 2)),
    ("pool_depth_B", List.replicate 12 (some 20))]⟩

/-- A table whose only reference count is negative (−1) with depth 10:
it violates `0 ≤ reference_count` but satisfies every check
`parse_pooled_data` actually performs. -/
def dfNegRef : DF :=
  ⟨[("reference_count_A", [some (-1)]), ("pool_depth_A", [some 10])]⟩

/-- A table declaring pool `B` through `reference_count_B` but carrying no
`pool_depth_B` column. -/
def dfNoDepthB : DF :=
  ⟨[("reference_count_A", [some 1]), ("pool_depth_A", [some 10]),
    ("reference_count_B", [some 1])]⟩

/-- A table whose single reference-count column name contains the marker
substring inside the suffix: `reference_count_` ++ `reference_count_A`. -/
def dfNestedName : DF :=
  ⟨[("reference_count_reference_count_A", [some 0])]⟩

/-- The suffix of a `reference_count_` column in the sense of the spec:
the column name with the leading marker removed. -/
def specRefSuffix (c : String) : String :=
  ⟨(headRest? refPrefixStr.data c.data).getD c.data⟩

/-- A callset whose first variant is heterozygous in every sample (alt
frequency 0.5, dosage column constantly 1) and whose second variant
varies (dosages 0 and 2): it passes all five QC stages yet its imputed
matrix contains a zero-variance variant column. -/
def csHet : Callset := ⟨[[(0, 1), (0, 1)], [(0, 0), (1, 1)]], ["s1", "s2"]⟩

/-- A callset with a single all-heterozygous variant: every non-missing
dosage equals 1, so the global variation check fires. -/
def csMono : Callset := ⟨[[(0, 1), (0, 1)]], ["s1", "s2"]⟩

/-- A callset with two biallelic variants of alt-allele frequencies 1/10
and 8/10 and no missing calls. -/
def csMaf : Callset :=
  ⟨[[(0, 1), (0, 0), (0, 0), (0, 0), (0, 0)], [(1, 1), (1, 1), (1, 1), (1, 1), (0, 0)]],
   ["a", "b", "c", "d", "e"]⟩

/-! ### Basic lemmas -/

theorem clip01_nonneg (x : ℚ) : 0 ≤ clip01 x :=
  le_min zero_le_one (le_max_left 0 x)

theorem clip01_le_one (x : ℚ) : clip01 x ≤ 1 :=
  min_le_left 1 _

theorem calcAF_ok_of_isSome (df : DF) (p : String)
    (h1 : (df.getCol (refPrefixStr ++ p)).isSome = true)
    (h2 : (df.getCol (depthPrefixStr ++ p)).isSome = true) :
    ∃ v, calculateAlleleFrequencies df p = .ok v := by
  obtain ⟨r, hr⟩ := Option.isSome_iff_exists.mp h1
  obtain ⟨d, hd⟩ := Option.isSome_iff_exists.mp h2
  exact ⟨_, by rw [calculateAlleleFrequencies, hr, hd]⟩

theorem calcAF_error_of_missing (df : DF) (p : String)
    (h : df.getCol (refPrefixStr ++ p) = none ∨ df.getCol (depthPrefixStr ++ p) = none) :
    calculateAlleleFrequencies df p = .error ("Missing columns for pool " ++ p) := by
  rw [calculateAlleleFrequencies]
  rcases h with h | h
  · rw [h]
  · rw [h]
    cases df.getCol (refPrefixStr ++ p) <;> rfl

/-! ### Claim C6 -/

/-- C6: for every pool pair whose four columns are present, if fewer than
10 loci qualify (both depths non-NaN, positive, and at least `min_depth`),
`calculate_pairwise_fst` returns the NaN sentinel, not zero. -/
theorem fst_pair_under_ten_loci_is_nan (df : DF) (p q : String) (d : ℤ)
    (h1 : (df.getCol (refPrefixStr ++ p)).isSome = true)
    (h2 : (df.getCol (depthPrefixStr ++ p)).isSome = true)
    (h3 : (df.getCol (refPrefixStr ++ q)).isSome = true)
    (h4 : (df.getCol (depthPrefixStr ++ q)).isSome = true)
    (hlt : (qualifyingLoci df p q d).length < 10) :
    calculatePairwiseFst df p q d = .ok none := by
  obtain ⟨v1, hv1⟩ := calcAF_ok_of_isSome df p h1 h2
  obtain ⟨v2, hv2⟩ := calcAF_ok_of_isSome df q h3 h4
  rw [calculatePairwiseFst, hv1, hv2]
  simp [hlt]

/-- C6 witness: a concrete pair with exactly 5 qualifying loci gets the
sentinel. -/
theorem fst_pair_under_ten_loci_is_nan_witness :
    (qualifyingLoci dfFive "A" "B" 10).length = 5 ∧
    calculatePairwiseFst dfFive "A" "B" 10 = .ok none :=
  ⟨by decide,
   fst_pair_under_ten_loci_is_nan dfFive "A" "B" 10 (by decide) (by decide) (by decide)
     (by decide) (by decide)⟩

/-! ### Claim C5 -/

/-- C5 (amended): with at least 2 samples, at least 1 feature and a
requested count `k ≥ 1`, `run_pca_analysis` computes exactly
`min(k, n_samples − 1, n_features)` components (for `k ≤ 0` it computes
`max(1, ·) = 1` instead); in particular `k = 5` on a 3-sample matrix with
at least 2 features yields exactly 2 components and no error. -/
theorem pca_effective_component_count :
    (∀ (m : List (List ℚ)) (k : ℤ), 2 ≤ m.length → 1 ≤ (m.headD []).length → 1 ≤ k →
      runPcaAnalysis m k =
        .ok (min (min (m.length - 1) (m.headD []).length) k.toNat)) ∧
    (∀ m : List (List ℚ), m.length = 3 → 2 ≤ (m.headD []).length →
      runPcaAnalysis m 5 = .ok 2) := by
  constructor
  · intro m k hn hf hk
    rw [runPcaAnalysis, runPcaComponents, if_neg (by omega), if_neg (by omega)]
    congr 1
    omega
  · intro m h3 hf
    rw [runPcaAnalysis, runPcaComponents, if_neg (by omega), if_neg (by omega)]
    congr 1
    omega

/-- C5 witness: 3 samples, 2 features, `k = 5` gives exactly 2 components. -/
theorem pca_effective_component_count_witness :
    runPcaAnalysis [[0, 0], [0, 0], [0, 0]] 5 = .ok 2 :=
  pca_effective_component_count.2 [[0, 0], [0, 0], [0, 0]] rfl (by decide)

/-- C5 counterexample to the claim as stated: a 3-sample matrix with a
single feature and `k = 5` yields 1 component, not 2; and for `k = 0` the
code yields 1 component although `min(k, n_samples − 1, n_features) = 0`,
so "at most min(k, n−1, f)" also fails. -/
theorem pca_component_count_counterexample :
    runPcaAnalysis [[0], [0], [0]] 5 = .ok 1 ∧ (1 : ℕ) ≠ 2 ∧
    runPcaAnalysis [[0, 0], [0, 0], [0, 0]] 0 = .ok 1 ∧
    min (min ((3 : ℤ) - 1) 2) 0 < 1 := by
  refine ⟨rfl, by decide, rfl, by decide⟩

/-! ### Claim C1 -/

theorem calculatePairwiseFst_ok_some_range (df : DF) (p q : String) (d : ℤ) (x : ℚ)
    (h : calculatePairwiseFst df p q d = .ok (some x)) : 0 ≤ x ∧ x ≤ 1 := by
  rw [calculatePairwiseFst] at h
  cases h1 : calculateAlleleFrequencies df p with
  | error e => simp [h1] at h
  | ok v1 =>
    cases h2 : calculateAlleleFrequencies df q with
    | error e => simp [h1, h2] at h
    | ok v2 =>
      simp only [h1, h2] at h
      split_ifs at h
      · simp at h
      · simp at h
      · simp only [Except.ok.injEq, Option.some.injEq] at h
        subst h
        exact ⟨clip01_nonneg _, clip01_le_one _⟩

theorem createFstMatrix_ok_eq (df : DF) (d : ℤ) (M : FstMatrix)
    (h : createFstMatrix df d = .ok M) :
    M = ⟨extractPoolNames df, fstEntry df d⟩ := by
  rw [createFstMatrix] at h
  cases hm : (upperPairs (extractPoolNames df).length).mapM (fun ij =>
      calculatePairwiseFst df ((extractPoolNames df).getD ij.1 "")
        ((extractPoolNames df).getD ij.2 "") d) with
  | error e => rw [hm] at h; cases h
  | ok u => rw [hm] at h; cases h; rfl

theorem fstEntry_symm (df : DF) (d : ℤ) (i j : ℕ) :
    fstEntry df d i j = fstEntry df d j i := by
  unfold fstEntry
  rcases eq_or_ne i j with rfl | hne
  · rfl
  · simp only [if_neg hne, if_neg (Ne.symm hne), Nat.min_comm j i, Nat.max_comm j i,
      and_comm]

theorem fstEntry_range (df : DF) (d : ℤ) (i j : ℕ) (x : ℚ)
    (h : fstEntry df d i j = some x) : 0 ≤ x ∧ x ≤ 1 := by
  unfold fstEntry at h
  by_cases h1 : i = j
  · rw [if_pos h1] at h
    by_cases h2 : i < (extractPoolNames df).length
    · rw [if_pos h2] at h
      injection h with h
      subst h
      norm_num
    · rw [if_neg h2] at h; cases h
  · rw [if_neg h1] at h
    by_cases h2 : i < (extractPoolNames df).length ∧ j < (extractPoolNames df).length
    · rw [if_pos h2] at h
      cases hc : calculatePairwiseFst df ((extractPoolNames df).getD (Nat.min i j) "")
          ((extractPoolNames df).getD (Nat.max i j) "") d with
      | error e => rw [hc] at h; cases h
      | ok v =>
        rw [hc] at h
        cases v with
        | none => cases h
        | some y =>
          simp only [Except.toOption, Option.getD_some, Option.some.injEq] at h
          subst h
          exact calculatePairwiseFst_ok_some_range df _ _ d _ hc
    · rw [if_neg h2] at h; cases h

/-- C1: whenever `create_fst_matrix` returns a matrix, that matrix is
symmetric, its diagonal is exactly zero, and every defined (non-NaN)
entry lies in the closed interval `[0, 1]`. -/
theorem fst_matrix_symmetric_zero_diag_unit_interval (df : DF) (d : ℤ) (M : FstMatrix)
    (h : createFstMatrix df d = .ok M) :
    (∀ i j, M.entry i j = M.entry j i) ∧
    (∀ i, i < M.pools.length → M.entry i i = some 0) ∧
    (∀ i j x, M.entry i j = some x → 0 ≤ x ∧ x ≤ 1) := by
  obtain rfl := createFstMatrix_ok_eq df d M h
  refine ⟨fun i j => fstEntry_symm df d i j, fun i hi => ?_, fun i j x hx => fstEntry_range df d i j x hx⟩
  simp only [fstEntry, if_pos rfl]
  exact if_pos hi

/-- The matrix `create_fst_matrix` produces on the concrete table `dfW`. -/
def matW : FstMatrix := ((createFstMatrix dfW 10).toOption).getD ⟨[], fun _ _ => none⟩

/-- C1 witness: `create_fst_matrix` succeeds on `dfW` and the resulting
matrix satisfies the three properties at concrete indices. -/
theorem fst_matrix_symmetric_zero_diag_unit_interval_witness :
    matW.entry 0 1 = matW.entry 1 0 ∧ matW.entry 0 0 = some 0 :=
  ⟨(fst_matrix_symmetric_zero_diag_unit_interval dfW 10 matW rfl).1 0 1,
   (fst_matrix_symmetric_zero_diag_unit_interval dfW 10 matW rfl).2.1 0 (by decide)⟩

/-! ### Claim C2 -/

theorem locusFst_fixed (p1 p2 : Option ℚ) (n1 n2 : ℚ) (h1 : 2 ≤ n1) (h2 : 2 ≤ n2)
    (hp : (p1 = some 0 ∧ p2 = some 1) ∨ (p1 = some 1 ∧ p2 = some 0)) :
    locusFst p1 n1 p2 n2 = some 1 := by
  have hs2den : ¬ (n1 + n2 - 1 ≤ 0) := by intro h; linarith
  have hcorrden : ¬ (2 * (n1 + n2) - 1 ≤ 0) := by intro h; linarith
  have hncpos : 0 < ncValOf n1 n2 - 1 := by
    have hpos : (0 : ℚ) < n1 + n2 := by linarith
    have key : ncValOf n1 n2 - 1 = (2 * n1 * n2 - n1 - n2) / (n1 + n2) := by
      field_simp [ncValOf]
      ring
    rw [key]
    apply div_pos ?_ hpos
    nlinarith
  have hncn : ¬ (ncValOf n1 n2 - 1 ≤ 0) := not_le.mpr hncpos
  rcases hp with ⟨hq1, hq2⟩ | ⟨hq1, hq2⟩ <;> subst hq1 <;> subst hq2
  · have hs2 : s2Of (some 0) n1 (some 1) n2 = some 0 := by
      rw [s2Of, if_neg hs2den]
      norm_num
    have hcorr : corrOf (some 0) n1 (some 1) n2 = some 0 := by
      rw [corrOf, if_neg hcorrden]
      norm_num
    have ha : aOf (some 0) n1 (some 1) n2 = some 0 := by
      rw [aOf, if_neg hncn, hs2, hcorr]
      norm_num
    have hnum : locusNumerator (some 0) n1 (some 1) n2 = some (1 / 2) := by
      rw [locusNumerator, ha, hcorr, cOf]
      norm_num [oadd]
    have hden : locusDenominator (some 0) n1 (some 1) n2 = some (1 / 2) := by
      rw [locusDenominator, hnum, hs2]
      norm_num [oadd]
    rw [locusFst, hnum, hden]
    norm_num [clip01]
  · have hs2 : s2Of (some 1) n1 (some 0) n2 = some 0 := by
      rw [s2Of, if_neg hs2den]
      norm_num
    have hcorr : corrOf (some 1) n1 (some 0) n2 = some 0 := by
      rw [corrOf, if_neg hcorrden]
      norm_num
    have ha : aOf (some 1) n1 (some 0) n2 = some 0 := by
      rw [aOf, if_neg hncn, hs2, hcorr]
      norm_num
    have hnum : locusNumerator (some 1) n1 (some 0) n2 = some (1 / 2) := by
      rw [locusNumerator, ha, hcorr, cOf]
      norm_num [oadd]
    have hden : locusDenominator (some 1) n1 (some 0) n2 = some (1 / 2) := by
      rw [locusDenominator, hnum, hs2]
      norm_num [oadd]
    rw [locusFst, hnum, hden]
    norm_num [clip01]

theorem mem_qualifyingLoci (df : DF) (p q : String) (d : ℤ)
    (l : Option ℚ × ℚ × Option ℚ × ℚ) (hl : l ∈ qualifyingLoci df p q d) :
    0 < l.2.1 ∧ 0 < l.2.2.2 ∧ (d : ℚ) ≤ l.2.1 ∧ (d : ℚ) ≤ l.2.2.2 := by
  simp only [qualifyingLoci, List.mem_filterMap] at hl
  obtain ⟨r, _, hr⟩ := hl
  rcases r with ⟨f1, od1, f2, od2⟩
  dsimp only at hr
  cases od1 with
  | none => cases hr
  | some n1 =>
    cases od2 with
    | none => cases hr
    | some n2 =>
      dsimp only at hr
      split_ifs at hr with hcond
      obtain ⟨ha, hb, hc, hd⟩ := hcond
      cases hr
      exact ⟨ha, hb, hc, hd⟩

theorem fixation_weighted (L : List (Option ℚ × ℚ × Option ℚ × ℚ))
    (hL : ∀ l ∈ L, locusWeighted l = some (1, l.2.1 + l.2.2.2))
    (hw : ∀ l ∈ L, 0 < l.2.1 + l.2.2.2) :
    ((L.filterMap locusWeighted).map (fun x => x.1 * x.2)).sum
      = ((L.filterMap locusWeighted).map (fun x => x.2)).sum ∧
    (L ≠ [] → L.filterMap locusWeighted ≠ [] ∧
      0 < ((L.filterMap locusWeighted).map (fun x => x.2)).sum) := by
  induction L with
  | nil => exact ⟨rfl, fun h => absurd rfl h⟩
  | cons l L ih =>
    have hl := hL l (List.mem_cons_self l L)
    have hwl := hw l (List.mem_cons_self l L)
    obtain ⟨ihsum, ihpos⟩ := ih (fun x hx => hL x (List.mem_cons_of_mem l hx))
      (fun x hx => hw x (List.mem_cons_of_mem l hx))
    rw [List.filterMap_cons, hl]
    refine ⟨?_, fun _ => ⟨by simp, ?_⟩⟩
    · simp only [List.map_cons, List.sum_cons, one_mul, ihsum]
    · simp only [List.map_cons, List.sum_cons]
      rcases eq_or_ne L [] with rfl | hne
      · simpa using hwl
      · have := (ihpos hne).2
        linarith

/-- C2 (amended): (i) at any locus whose denominator `a+b+c+s²` is exactly
zero, the locus FST is 0 when the numerator `a+b+c` is exactly zero and 1
otherwise; (ii) for any pool pair with at least 10 qualifying loci at
`min_depth ≥ 2`, all of them fixed-differentiated (frequency 0 in one
pool, 1 in the other), the pair FST is exactly 1.  (At `min_depth = 1`
part (ii) fails: loci with both depths equal to 1 have nc minus 1 equal
to 0, the `a` component is NaN and they are excluded, see the
counterexample.) -/
theorem fst_zero_denominator_and_fixation :
    (∀ (p1 p2 : Option ℚ) (n1 n2 : ℚ), locusDenominator p1 n1 p2 n2 = some 0 →
      ((locusNumerator p1 n1 p2 n2 = some 0 → locusFst p1 n1 p2 n2 = some 0) ∧
       (locusNumerator p1 n1 p2 n2 ≠ some 0 → locusFst p1 n1 p2 n2 = some 1))) ∧
    (∀ (df : DF) (pool1 pool2 : String) (d : ℤ), 2 ≤ d →
      (df.getCol (refPrefixStr ++ pool1)).isSome = true →
      (df.getCol (depthPrefixStr ++ pool1)).isSome = true →
      (df.getCol (refPrefixStr ++ pool2)).isSome = true →
      (df.getCol (depthPrefixStr ++ pool2)).isSome = true →
      10 ≤ (qualifyingLoci df pool1 pool2 d).length →
      (∀ l ∈ qualifyingLoci df pool1 pool2 d,
        (l.1 = some 0 ∧ l.2.2.1 = some 1) ∨ (l.1 = some 1 ∧ l.2.2.1 = some 0)) →
      calculatePairwiseFst df pool1 pool2 d = .ok (some 1)) := by
  constructor
  · intro p1 p2 n1 n2 hden
    have hnum : ∃ nu, locusNumerator p1 n1 p2 n2 = some nu := by
      rcases hx : locusNumerator p1 n1 p2 n2 with _ | nu
      · rw [locusDenominator, hx] at hden
        simp [oadd] at hden
      · exact ⟨nu, rfl⟩
    obtain ⟨nu, hnu⟩ := hnum
    constructor
    · intro h0
      rw [locusFst, h0, hden]
      norm_num [clip01]
    · intro hne
      have hnu0 : ¬ nu = 0 := fun h => hne (h ▸ hnu)
      rw [locusFst, hnu, hden]
      simp only [ne_eq, not_true_eq_false, if_false, if_neg hnu0]
      norm_num [clip01]
  · intro df pool1 pool2 d hd h1 h2 h3 h4 hlen hfix
    obtain ⟨v1, hv1⟩ := calcAF_ok_of_isSome df pool1 h1 h2
    obtain ⟨v2, hv2⟩ := calcAF_ok_of_isSome df pool2 h3 h4
    have hdq : (2 : ℚ) ≤ (d : ℚ) := by exact_mod_cast hd
    have hall : ∀ l ∈ qualifyingLoci df pool1 pool2 d,
        locusWeighted l = some (1, l.2.1 + l.2.2.2) := by
      intro l hl
      obtain ⟨hp1, hp2, hd1, hd2⟩ := mem_qualifyingLoci df pool1 pool2 d l hl
      rw [locusWeighted, locusFst_fixed l.1 l.2.2.1 l.2.1 l.2.2.2
        (le_trans hdq hd1) (le_trans hdq hd2) (hfix l hl)]
      rfl
    have hw : ∀ l ∈ qualifyingLoci df pool1 pool2 d, 0 < l.2.1 + l.2.2.2 := by
      intro l hl
      obtain ⟨hp1, hp2, _, _⟩ := mem_qualifyingLoci df pool1 pool2 d l hl
      linarith
    obtain ⟨hsum, hpos⟩ := fixation_weighted (qualifyingLoci df pool1 pool2 d) hall hw
    have hLne : qualifyingLoci df pool1 pool2 d ≠ [] := by
      intro h
      rw [h] at hlen
      simp at hlen
    obtain ⟨hWne, hWpos⟩ := hpos hLne
    rw [calculatePairwiseFst, hv1, hv2, if_neg (by omega),
      if_neg (by push_neg; exact ⟨hWne, hWpos.ne'⟩), hsum, div_self hWpos.ne']
    norm_num [clip01]

/-- C2 counterexample to the claim as stated: at `min_depth = 1`, a 2-pool
table with 10 qualifying fixed-differentiated loci (frequency 0 in pool A,
1 in pool B, all depths 1) yields the NaN sentinel, not FST = 1.0. -/
theorem fst_fixation_counterexample_depth_one :
    (qualifyingLoci dfDepthOne "A" "B" 1).length = 10 ∧
    ((qualifyingLoci dfDepthOne "A" "B" 1).all
      (fun l => l.1 == some 0 && l.2.2.1 == some 1)) = true ∧
    calculatePairwiseFst dfDepthOne "A" "B" 1 = .ok none :=
  ⟨by decide, by with_unfolding_all decide, by with_unfolding_all rfl⟩

/-- C2 witness: the fixation scenario at `min_depth = 10` with depth-10
loci gives FST exactly 1, and a concrete exact-zero denominator with
exact-zero numerator gives locus FST 0. -/
theorem fst_zero_denominator_and_fixation_witness :
    calculatePairwiseFst dfFixed "A" "B" 10 = .ok (some 1) ∧
    locusFst (some 0) 10 (some 0) 10 = some 0 :=
  ⟨fst_zero_denominator_and_fixation.2 dfFixed "A" "B" 10 (by decide) (by decide) (by decide)
      (by decide) (by decide) (by decide) (by with_unfolding_all decide),
   (fst_zero_denominator_and_fixation.1 (some 0) (some 0) 10 10 (by with_unfolding_all decide)).1
     (by with_unfolding_all decide)⟩

/-! ### Claim C3 -/

/-- C3 (amended): for every callset surviving stages 1-4 (yielding the
dosage matrix `gn`), `apply_quality_control` fails with the
no-variation `InsufficientDataError` exactly when the pooled non-missing
dosage values of the WHOLE matrix are nonempty and all equal.  The check
is global (`gn[gn != -1].std() == 0`), not per variant column, so a
returned matrix may still contain zero-variance variant columns (see the
counterexample). -/
theorem qc_variation_check_is_global (cs : Callset) (m t1 t2 : ℚ)
    (gn : List (List ℤ)) (s : List String) (k : ℕ)
    (h : qcStages cs m t1 t2 = .ok (gn, s, k)) :
    applyQualityControl cs m t1 t2 = .error .noVariation ↔
      (nonMissingVals gn ≠ [] ∧ allEqL (nonMissingVals gn) = true) := by
  rw [applyQualityControl, h]
  dsimp only
  split_ifs with hc
  · exact ⟨fun _ => hc, fun _ => rfl⟩
  · constructor
    · intro he
      exact absurd he (by simp)
    · intro hcc
      exact absurd hcc hc

/-- C3 counterexample to the claim as stated: `csHet` passes the whole
pipeline and the returned sample × variant matrix `[[1, 0], [1, 2]]` has a
zero-variance variant column (column 0 is `[1, 1]`); no
`InsufficientDataError` is raised because the global pooled values
`[1, 1, 0, 2]` are not all equal. -/
theorem qc_zero_variance_column_counterexample :
    applyQualityControl csHet (5 / 100) (2 / 10) (2 / 10) =
      .ok ⟨[[1, 0], [1, 2]], ["s1", "s2"], 2, 2, 2⟩ ∧
    ([[(1 : ℚ), 0], [1, 2]].map (fun r => r.getD 0 0)) = [1, 1] ∧
    allEqL ([[(1 : ℚ), 0], [1, 2]].map (fun r => r.getD 0 0)) = true :=
  ⟨by with_unfolding_all rfl, by norm_num, by with_unfolding_all decide⟩

/-- C3 witness: on `csMono` (one all-heterozygous variant) the pipeline
does fail with the no-variation error, as the amended claim requires. -/
theorem qc_variation_check_is_global_witness :
    applyQualityControl csMono (5 / 100) (2 / 10) (2 / 10) = .error .noVariation :=
  (qc_variation_check_is_global csMono (5 / 100) (2 / 10) (2 / 10) [[1, 1]] ["s1", "s2"] 1
    (by with_unfolding_all rfl)).mpr (by with_unfolding_all decide)

/-! ### Claim C4 -/

/-- The minor-allele frequency of a variant in the sense of the glossary
of the spec: the frequency of the less common allele,
`min(aaf, 1 − aaf)`.  Used only to compare the reported diagnostic of the code
against the description in the claim. -/
def specMinorAlleleFreq (v : GRow) : ℚ := min (aafOf v) (1 - aafOf v)

/-- C4 (amended): in the MAF stage, a variant is retained iff its
alt-allele frequency (share of allele-1 copies among observed allele
copies, 0 when nothing is observed) lies strictly inside
`(t, 1 − t)`; on zero survivors the filter is retried exactly once at
`t / 2`; if still zero survive, the stage fails reporting
`max {aaf | aaf < 0.5}` — the maximum ALT-allele frequency below 0.5,
which is not in general the maximum minor-allele frequency (see the
counterexample). -/
theorem maf_stage_retention_retry_report (gtBi : List GRow) (t : ℚ) :
    (gtBi.filter (mafInside t) ≠ [] →
      (mafStage gtBi t = .ok (gtBi.filter (mafInside t)) ∧
       ∀ v, v ∈ gtBi.filter (mafInside t) ↔ (v ∈ gtBi ∧ t < aafOf v ∧ aafOf v < 1 - t))) ∧
    (gtBi.filter (mafInside t) = [] → gtBi.filter (mafInside (t / 2)) ≠ [] →
      (mafStage gtBi t = .ok (gtBi.filter (mafInside (t / 2))) ∧
       ∀ v, v ∈ gtBi.filter (mafInside (t / 2)) ↔
         (v ∈ gtBi ∧ t / 2 < aafOf v ∧ aafOf v < 1 - t / 2))) ∧
    (gtBi.filter (mafInside t) = [] → gtBi.filter (mafInside (t / 2)) = [] →
      (gtBi.map aafOf).filter (fun x => decide (x < 1 / 2)) ≠ [] →
      mafStage gtBi t =
        .error (.mafFail t (qListMax ((gtBi.map aafOf).filter (fun x => decide (x < 1 / 2)))))) := by
  refine ⟨?_, ?_, ?_⟩
  · intro h
    rw [mafStage, if_neg h]
    exact ⟨rfl, fun v => by simp [List.mem_filter, mafInside]⟩
  · intro h h2
    rw [mafStage, if_pos h, if_neg h2]
    exact ⟨rfl, fun v => by simp [List.mem_filter, mafInside]⟩
  · intro h h2 h3
    rw [mafStage, if_pos h, if_pos h2, if_neg h3]

/-- C4 counterexample to the claim as stated: `csMaf` has alt-allele
frequencies 1/10 and 8/10 (both biallelic, no missing calls); at
`maf_threshold = 1/2` no variant passes the filter or the retry, and the
raised error reports `max {aaf | aaf < 0.5} = 1/10`, although the maximum
observed minor-allele frequency (all below 0.5 here) is
`min(8/10, 2/10) = 1/5`. -/
theorem maf_reported_diagnostic_counterexample :
    applyQualityControl csMaf (1 / 2) (2 / 10) (2 / 10) =
      .error (.mafFail (1 / 2) (1 / 10)) ∧
    qListMax ((csMaf.gt.map specMinorAlleleFreq).filter (fun x => decide (x < 1 / 2)))
      = 1 / 5 ∧
    ((1 : ℚ) / 10) ≠ 1 / 5 :=
  ⟨by with_unfolding_all rfl, by with_unfolding_all decide, by norm_num⟩

/-- C4 witness: on the two variants of `csHet` (both with alt frequency 1/2) at
threshold 5/100 the first-attempt branch applies. -/
theorem maf_stage_retention_retry_report_witness :
    mafStage csHet.gt (5 / 100) = .ok (csHet.gt.filter (mafInside (5 / 100))) :=
  ((maf_stage_retention_retry_report csHet.gt (5 / 100)).1
    (by with_unfolding_all decide)).1

/-! ### Claim C7 -/

theorem cellNeg_false_iff (x : Option ℚ) :
    cellNeg x = false ↔ (x.isSome = true → 0 ≤ x.getD 0) := by
  cases x <;> simp [cellNeg]

theorem refGtDepthCell_false_iff (r d : Option ℚ) :
    refGtDepthCell r d = false ↔
      (r.isSome = true → d.isSome = true → r.getD 0 ≤ d.getD 0) := by
  cases r <;> cases d <;> simp [refGtDepthCell]

/-- C7 (amended): `parse_pooled_data` accepts a (post-coercion) table iff
it is nonempty, both column families are present, no depth column holds a
non-NaN negative value, and — for each pool suffix, over the rows where
both reconstructed columns exist and both cells are non-NaN —
`reference_count ≤ pool_depth`.  Any violation of these rejects the whole
table; but negative reference counts are NOT among the checked
conditions (the code never tests `0 ≤ reference_count`; see the
counterexample). -/
theorem parse_pooled_accept_iff (df : DF) :
    parsePooledData df = .ok df ↔
      (df.nrows ≠ 0 ∧ df.cols ≠ [] ∧ refColNames df ≠ [] ∧ depthColNames df ≠ [] ∧
       (∀ c ∈ depthColNames df, ∀ x ∈ (df.getCol c).getD [], x.isSome = true → 0 ≤ x.getD 0) ∧
       (∀ s ∈ poolSuffixes df,
         ∀ p ∈ ((df.getCol (refPrefixStr ++ s)).getD []).zip
             ((df.getCol (depthPrefixStr ++ s)).getD []),
           p.1.isSome = true → p.2.isSome = true → p.1.getD 0 ≤ p.2.getD 0)) := by
  rw [parsePooledData]
  by_cases h1 : df.nrows = 0 ∨ df.cols = []
  · rw [if_pos h1]
    constructor
    · intro h
      exact absurd h (by simp)
    · rintro ⟨ha, hb, -⟩
      rcases h1 with h1 | h1
      · exact absurd h1 ha
      · exact absurd h1 hb
  · rw [if_neg h1]
    push_neg at h1
    by_cases h2 : refColNames df = [] ∨ depthColNames df = []
    · rw [if_pos h2]
      constructor
      · intro h
        exact absurd h (by simp)
      · rintro ⟨-, -, hc, hd, -⟩
        rcases h2 with h2 | h2
        · exact absurd h2 hc
        · exact absurd h2 hd
    · rw [if_neg h2]
      push_neg at h2
      cases hf : (depthColNames df).find? (fun c => ((df.getCol c).getD []).any cellNeg) with
      | some c =>
        constructor
        · intro h
          exact absurd h (by simp)
        · rintro ⟨-, -, -, -, hneg, -⟩
          have hpc := List.find?_some hf
          have hmem : c ∈ depthColNames df := List.mem_of_find?_eq_some hf
          obtain ⟨x, hxmem, hx⟩ := List.any_eq_true.mp hpc
          cases x with
          | none => simp [cellNeg] at hx
          | some v =>
            simp only [cellNeg, decide_eq_true_eq] at hx
            have := hneg (c) hmem (some v) hxmem (by simp)
            simp only [Option.getD_some] at this
            linarith
      | none =>
        cases hg : (poolSuffixes df).find? (fun s =>
            match df.getCol (refPrefixStr ++ s), df.getCol (depthPrefixStr ++ s) with
            | some rcol, some dcol => (rcol.zip dcol).any (fun rd => refGtDepthCell rd.1 rd.2)
            | _, _ => false) with
        | some s =>
          constructor
          · intro h
            exact absurd h (by simp)
          · rintro ⟨-, -, -, -, -, hpair⟩
            have hps := List.find?_some hg
            have hmem : s ∈ poolSuffixes df := List.mem_of_find?_eq_some hg
            cases hrc : df.getCol (refPrefixStr ++ s) with
            | none => rw [hrc] at hps; simp at hps
            | some rcol =>
              cases hdc : df.getCol (depthPrefixStr ++ s) with
              | none => rw [hrc, hdc] at hps; simp at hps
              | some dcol =>
                rw [hrc, hdc] at hps
                dsimp only at hps
                obtain ⟨rd, hrdmem, hrd⟩ := List.any_eq_true.mp hps
                rcases rd with ⟨r1, d1⟩
                cases r1 with
                | none => simp [refGtDepthCell] at hrd
                | some rv =>
                  cases d1 with
                  | none => simp [refGtDepthCell] at hrd
                  | some dv =>
                    simp only [refGtDepthCell, decide_eq_true_eq] at hrd
                    have := hpair s hmem (some rv, some dv)
                      (by simp only [hrc, hdc, Option.getD_some]; exact hrdmem)
                      (by simp) (by simp)
                    simp only [Option.getD_some] at this
                    linarith
        | none =>
          constructor
          · intro _
            refine ⟨h1.1, h1.2, h2.1, h2.2, ?_, ?_⟩
            · intro c hcm x hxm hxs
              have hnp := List.find?_eq_none.mp hf c hcm
              have hcn : cellNeg x = false := by
                by_contra hb
                rw [Bool.not_eq_false] at hb
                exact hnp (List.any_eq_true.mpr ⟨x, hxm, hb⟩)
              exact (cellNeg_false_iff x).mp hcn hxs
            · intro s hsm p hpm hp1 hp2
              have hnp := List.find?_eq_none.mp hg s hsm
              cases hrc : df.getCol (refPrefixStr ++ s) with
              | none => rw [hrc] at hpm; simp at hpm
              | some rcol =>
                cases hdc : df.getCol (depthPrefixStr ++ s) with
                | none => rw [hrc, hdc] at hpm; simp at hpm
                | some dcol =>
                  rw [hrc, hdc] at hpm hnp
                  dsimp only at hnp
                  simp only [Option.getD_some] at hpm
                  have hb : refGtDepthCell p.1 p.2 = false := by
                    by_contra hb
                    rw [Bool.not_eq_false] at hb
                    exact hnp (List.any_eq_true.mpr ⟨p, hpm, hb⟩)
                  exact (refGtDepthCell_false_iff p.1 p.2).mp hb hp1 hp2
          · intro _
            rfl

/-- C7 counterexample to the claim as stated: a table whose only
reference count is −1 (violating `0 ≤ reference_count` at depth 10) is
accepted by `parse_pooled_data`, not rejected. -/
theorem parse_negative_ref_counterexample :
    parsePooledData dfNegRef = .ok dfNegRef ∧
    dfNegRef.getCol (refPrefixStr ++ "A") = some [some (-1)] ∧
    ((-1 : ℚ) < 0) :=
  ⟨by with_unfolding_all rfl, by decide, by norm_num⟩

/-- C7 witness: the acceptance characterisation applied to the concrete
valid table `dfW`. -/
theorem parse_pooled_accept_iff_witness :
    parsePooledData dfW = .ok dfW :=
  (parse_pooled_accept_iff dfW).mpr (by with_unfolding_all decide)

/-! ### Claim C8 -/

theorem mapM_ok_forall {α β : Type} (f : α → Except String β) (l : List α)
    (ys : List β) (h : l.mapM f = .ok ys) : ∀ x ∈ l, ∃ y, f x = .ok y := by
  induction l generalizing ys with
  | nil => intro x hx; cases hx
  | cons a l ih =>
    rw [List.mapM_cons] at h
    cases hfa : f a with
    | error e => rw [hfa] at h; exact absurd h (by simp [Bind.bind, Except.bind])
    | ok b =>
      rw [hfa] at h
      cases hml : l.mapM f with
      | error e => rw [hml] at h; exact absurd h (by simp [Bind.bind, Except.bind])
      | ok bs =>
        rw [hml] at h
        intro x hx
        rcases List.mem_cons.mp hx with rfl | hx
        · exact ⟨b, hfa⟩
        · exact ih bs hml x hx

theorem pair_mem_upperPairs (i j n : ℕ) (hij : i < j) (hj : j < n) :
    (i, j) ∈ upperPairs n := by
  rw [upperPairs, List.mem_flatMap]
  refine ⟨i, List.mem_range.mpr (by omega), ?_⟩
  rw [List.mem_map]
  exact ⟨j, List.mem_filter.mpr ⟨List.mem_range.mpr hj, by simpa using hij⟩, rfl⟩

theorem calcAF_ok_isSome (df : DF) (p : String) (v : List (Option ℚ) × List Bool)
    (h : calculateAlleleFrequencies df p = .ok v) :
    (df.getCol (refPrefixStr ++ p)).isSome = true ∧
    (df.getCol (depthPrefixStr ++ p)).isSome = true := by
  rw [calculateAlleleFrequencies] at h
  cases hr : df.getCol (refPrefixStr ++ p) with
  | none => rw [hr] at h; cases h
  | some rcol =>
    cases hd : df.getCol (depthPrefixStr ++ p) with
    | none => rw [hr, hd] at h; cases h
    | some dcol => exact ⟨by simp [hr], by simp [hd]⟩

theorem calculatePairwiseFst_ok_cols (df : DF) (p q : String) (d : ℤ) (v : Option ℚ)
    (h : calculatePairwiseFst df p q d = .ok v) :
    ((df.getCol (refPrefixStr ++ p)).isSome = true ∧
     (df.getCol (depthPrefixStr ++ p)).isSome = true) ∧
    ((df.getCol (refPrefixStr ++ q)).isSome = true ∧
     (df.getCol (depthPrefixStr ++ q)).isSome = true) := by
  rw [calculatePairwiseFst] at h
  cases h1 : calculateAlleleFrequencies df p with
  | error e => rw [h1] at h; cases h
  | ok v1 =>
    rw [h1] at h
    cases h2 : calculateAlleleFrequencies df q with
    | error e => rw [h2] at h; cases h
    | ok v2 => exact ⟨calcAF_ok_isSome df p v1 h1, calcAF_ok_isSome df q v2 h2⟩

/-- C8 (amended): a pooled table in which a declared pool lacks its
`reference_count_` or `pool_depth_` column is NOT rejected before the
estimator (`parse_pooled_data` merely skips the pair check for such a
pool, see the counterexample, and the estimator is invoked); instead,
when at least two pool names are extracted and one of them is missing a
column, `create_fst_matrix` itself aborts with an exception rather than
returning a matrix. -/
theorem fst_matrix_error_on_missing_pool_column (df : DF) (d : ℤ)
    (h2 : 2 ≤ (extractPoolNames df).length)
    (p : String) (hp : p ∈ extractPoolNames df)
    (hmiss : df.getCol (refPrefixStr ++ p) = none ∨ df.getCol (depthPrefixStr ++ p) = none) :
    (createFstMatrix df d).toOption = none := by
  cases hc : createFstMatrix df d with
  | error e => rfl
  | ok M =>
    exfalso
    rw [createFstMatrix] at hc
    cases hm : (upperPairs (extractPoolNames df).length).mapM (fun ij =>
        calculatePairwiseFst df ((extractPoolNames df).getD ij.1 "")
          ((extractPoolNames df).getD ij.2 "") d) with
    | error e => rw [hm] at hc; cases hc
    | ok u =>
      have hall := mapM_ok_forall _ _ _ hm
      obtain ⟨ip, hlt, hip⟩ := List.mem_iff_getElem.mp hp
      have hgd : (extractPoolNames df).getD ip "" = p := by
        rw [List.getD_eq_getElem _ _ hlt, hip]
      rcases Nat.eq_zero_or_pos ip with rfl | hpos
      · obtain ⟨y, hy⟩ := hall (0, 1) (pair_mem_upperPairs 0 1 _ Nat.one_pos (by omega))
        rw [hgd] at hy
        obtain ⟨⟨ha, hb⟩, -⟩ := calculatePairwiseFst_ok_cols _ _ _ _ _ hy
        rcases hmiss with hmiss | hmiss
        · rw [hmiss] at ha; cases ha
        · rw [hmiss] at hb; cases hb
      · obtain ⟨y, hy⟩ := hall (0, ip) (pair_mem_upperPairs 0 ip _ hpos hlt)
        rw [hgd] at hy
        obtain ⟨-, hc, hd⟩ := calculatePairwiseFst_ok_cols _ _ _ _ _ hy
        rcases hmiss with hmiss | hmiss
        · rw [hmiss] at hc; cases hc
        · rw [hmiss] at hd; cases hd

/-- C8 counterexample to the claim as stated: `dfNoDepthB` declares pool
`B` via `reference_count_B` but has no `pool_depth_B` column; the parser
accepts the table (it is not "rejected before reaching the estimator"),
and the invoked estimator then aborts. -/
theorem parse_accepts_missing_pool_column_counterexample :
    parsePooledData dfNoDepthB = .ok dfNoDepthB ∧
    "B" ∈ extractPoolNames dfNoDepthB ∧
    dfNoDepthB.getCol (depthPrefixStr ++ "B") = none ∧
    (createFstMatrix dfNoDepthB 10).toOption = none :=
  ⟨by with_unfolding_all rfl, by decide, by decide, by with_unfolding_all rfl⟩

/-- C8 witness: the amended statement applied to the concrete table
`dfNoDepthB`. -/
theorem fst_matrix_error_on_missing_pool_column_witness :
    (createFstMatrix dfNoDepthB 10).toOption = none :=
  fst_matrix_error_on_missing_pool_column dfNoDepthB 10 (by decide) "B" (by decide)
    (Or.inr (by decide))

/-! ### Claim C10 -/

/-- C10 (amended): the pool labels of a returned FST matrix are the
`reference_count_` column names with every occurrence of the substring
`reference_count_` removed (Python `str.replace` — equal to the plain
suffix whenever the suffix itself does not contain the marker, but not in
general, see the counterexample), and rows/columns appear in
lexicographic (code-point) sorted order regardless of input column
order. -/
theorem fst_matrix_pool_labels_sorted (df : DF) (d : ℤ) (M : FstMatrix)
    (h : createFstMatrix df d = .ok M) :
    M.pools = extractPoolNames df ∧
    M.pools.Sorted pyStrLe ∧
    M.pools.Perm ((df.colNames.filter (fun c => startsL refPrefixStr.data c.data)).map
      (fun c => pyReplace c refPrefixStr "")) := by
  obtain rfl := createFstMatrix_ok_eq df d M h
  refine ⟨rfl, ?_, ?_⟩
  · simp only [extractPoolNames, pySorted]
    exact List.sorted_insertionSort pyStrLe _
  · simp only [extractPoolNames, pySorted]
    exact List.perm_insertionSort pyStrLe _

/-- C10 counterexample to the claim as stated: for the column name
`reference_count_reference_count_A` the produced pool label is `A`
(`str.replace` removes BOTH occurrences), while the suffix after the
leading marker is `reference_count_A`; `create_fst_matrix` succeeds and
labels the 1×1 matrix `A`. -/
theorem fst_pool_label_not_suffix_counterexample :
    ((createFstMatrix dfNestedName 10).toOption.map (fun M => M.pools)) = some ["A"] ∧
    specRefSuffix "reference_count_reference_count_A" = "reference_count_A" ∧
    ("A" : String) ≠ "reference_count_A" :=
  ⟨by with_unfolding_all rfl, rfl, by decide⟩

/-- C10 witness: the sortedness/labelling statement applied to the
concrete matrix built from `dfW`. -/
theorem fst_matrix_pool_labels_sorted_witness :
    matW.pools = extractPoolNames dfW ∧ matW.pools.Sorted pyStrLe :=
  ⟨(fst_matrix_pool_labels_sorted dfW 10 matW rfl).1,
   (fst_matrix_pool_labels_sorted dfW 10 matW rfl).2.1⟩

end KDS
